import Mathlib

/-!
# FinTrack Pro — verification of the data-access and reporting layer

Shallow embedding of `src/newcode.py` (a single-file Python/SQLite/SQLAlchemy
personal finance manager).  Modelling conventions:

* `Float` amounts and budget limits are modelled as exact rationals (`ℚ`).
* Python `date` values are modelled as `(year, month, day)` triples; Python
  compares dates and does date arithmetic through the proleptic-Gregorian
  ordinal (`date.toordinal`), which we implement as `Date.ord` and use for
  every comparison, cutoff and `days_left` computation.  For valid dates the
  ordinal order coincides with Python's tuple comparison.
* The SQLite store is a record of four tables, each a list kept in insertion
  (rowid) order, plus the next autoincrement id per table.  A SQL
  `ORDER BY k` clause is modelled as a stable sort (`List.insertionSort`) of
  the table by `k`; rows whose keys tie are left in table order.
* `strftime('%Y-%m', e.date) = :month` compares the expense's year-month to a
  `"YYYY-MM"` month key; two such strings are equal iff the (year, month)
  pairs are equal, so month keys are modelled as `Int × Int`.
* A `session.commit()` that the database rejects is modelled by an explicit
  failure-injection argument (`WriteFail`): the operation then performs
  `session.rollback()`, which restores the state of the *last successful
  commit*, not necessarily the state at the start of the operation.
-/

namespace FinTrack

/-- Python `datetime.date`: a calendar date. -/
structure Date where
  y : Int
  m : Int
  d : Int
deriving DecidableEq, Repr

/-- Cumulative day counts before each month in a non-leap year
(`_DAYS_BEFORE_MONTH` in CPython's `datetime`). -/
def daysBeforeMonthTable : List Int :=
  [0, 31, 59, 90, 120, 151, 181, 212, 243, 273, 304, 334]

/-- Gregorian leap-year test. -/
def isLeap (y : Int) : Bool :=
  (y % 4 == 0 && y % 100 != 0) || (y % 400 == 0)

/-- Python `date.toordinal()`: days since 0001-01-01 (that date having ordinal 1). -/
def Date.ord (dt : Date) : Int :=
  let py := dt.y - 1
  365 * py + py / 4 - py / 100 + py / 400
    + (daysBeforeMonthTable.getD (dt.m - 1).toNat 0)
    + (if 2 < dt.m && isLeap dt.y then 1 else 0)
    + dt.d

/-- The month key `strftime('%Y-%m', d)` as a comparable month key. -/
def monthOf (d : Date) : Int × Int := (d.y, d.m)

/-- Row of table `categories`. -/
structure Category where
  id : Nat
  name : String
deriving DecidableEq, Repr

/-- Row of table `expenses`. -/
structure Expense where
  id : Nat
  title : String
  amount : ℚ
  date : Date
  category_id : Nat
deriving DecidableEq, Repr

/-- Row of table `budgets`; `month` is the `"YYYY-MM"` key as a pair. -/
structure Budget where
  id : Nat
  month : Int × Int
  limit : ℚ
deriving DecidableEq, Repr

/-- Row of table `subscriptions`. -/
structure Subscription where
  id : Nat
  name : String
  amount : ℚ
  next_date : Date
deriving DecidableEq, Repr

/-- The SQLite database: four tables in rowid (insertion) order, plus the next
autoincrement primary key of each. -/
structure Store where
  categories : List Category
  expenses : List Expense
  budgets : List Budget
  subscriptions : List Subscription
  nextCatId : Nat
  nextExpId : Nat
  nextBudId : Nat
  nextSubId : Nat
deriving DecidableEq, Repr

/-- The freshly created database. -/
def Store.empty : Store :=
  ⟨[], [], [], [], 1, 1, 1, 1⟩

/-- Python `str.lower()` (character-wise lowercasing; ASCII suffices for the
names at issue). -/
def strLower (s : String) : String := ⟨s.data.map Char.toLower⟩

/-- Python `str.strip()`: drop leading and trailing whitespace. -/
def strStrip (s : String) : String :=
  ⟨((s.data.dropWhile Char.isWhitespace).reverse.dropWhile
      Char.isWhitespace).reverse⟩

/-- Normalization `name.strip().lower()` — the normalization applied by
`get_or_create_category` (line 60). -/
def normalizeName (s : String) : String := strLower (strStrip s)

/-- Function `get_or_create_category(session, name)` (lines 59–66): normalize the name,
return the first existing category with that name, else insert (and commit) a
new one.  Returns the category together with the store after the call. -/
def get_or_create_category (s : Store) (name : String) : Category × Store :=
  let n := normalizeName name
  match s.categories.find? (fun c => c.name == n) with
  | some c => (c, s)
  | none =>
      let c : Category := ⟨s.nextCatId, n⟩
      (c, { s with categories := s.categories ++ [c],
                   nextCatId := s.nextCatId + 1 })

/-- Which (if any) of the commits inside `add_expense` the database rejects. -/
inductive WriteFail where
  | noFail
  | categoryWrite
  | expenseWrite
deriving DecidableEq, Repr

/-- Outcome of the add-expense user action. -/
inductive AddResult where
  | validationError (msg : String)
  | storageError
  | added
deriving DecidableEq, Repr

/-- Function `add_expense(title, amount, category_name, exp_date)` (lines 90–104).
`exp_date` is the already-parsed date filter (`parse_date` returns `None` on
empty/unparsable input, line 94 then falls back to `date.today()`, passed here
as `today`).  The commit inside `get_or_create_category` is a separate,
earlier transaction: if the category insert itself fails nothing is persisted,
but if the *expense* commit fails, `session.rollback()` only undoes the
expense — a category committed moments before stays. -/
def add_expense (s : Store) (title : String) (amount : ℚ)
    (category_name : String) (exp_date : Option Date) (today : Date)
    (fail : WriteFail) : Store × AddResult :=
  let isNewCat :=
    (s.categories.find? (fun c => c.name == normalizeName category_name)).isNone
  if fail == WriteFail.categoryWrite && isNewCat then
    -- the commit at line 65 fails; rollback leaves the original store
    (s, AddResult.storageError)
  else
    let res := get_or_create_category s category_name
    let cat := res.1
    let s1 := res.2
    let d := exp_date.getD today
    if fail == WriteFail.expenseWrite then
      -- the commit at line 98 fails; rollback restores the state of the
      -- last successful commit, i.e. `s1` (category included)
      (s1, AddResult.storageError)
    else
      let e : Expense := ⟨s1.nextExpId, strStrip title, amount, d, cat.id⟩
      ({ s1 with expenses := s1.expenses ++ [e],
                 nextExpId := s1.nextExpId + 1 },
       AddResult.added)

/-- The menu's "1. Add Expense" handler (lines 329–346): validates the
stripped title, the amount (`amount <= 0` raises → "Enter a valid positive
amount."), and the stripped category before ever calling `add_expense`. -/
def menu_add_expense (s : Store) (title : String) (amount : ℚ)
    (category : String) (exp_date : Option Date) (today : Date)
    (fail : WriteFail) : Store × AddResult :=
  if strStrip title == "" then
    (s, AddResult.validationError "Title is required.")
  else if amount ≤ 0 then
    (s, AddResult.validationError "Enter a valid positive amount.")
  else if strStrip category == "" then
    (s, AddResult.validationError "Category is required.")
  else
    add_expense s (strStrip title) amount (strStrip category) exp_date today
      fail

/-- The order `ORDER BY Expense.date.desc(), Expense.id.desc()` (line 127): `a` comes
no later than `b` iff `a`'s date is later, or the dates tie and `a`'s id is
at least `b`'s. -/
def expByDateIdDesc (a b : Expense) : Prop :=
  b.date.ord < a.date.ord ∨ (b.date.ord = a.date.ord ∧ b.id ≤ a.id)

instance : DecidableRel expByDateIdDesc := fun a b => by
  unfold expByDateIdDesc; infer_instance

instance : IsTotal Expense expByDateIdDesc where
  total a b := by unfold expByDateIdDesc; omega

instance : IsTrans Expense expByDateIdDesc where
  trans a b c := by unfold expByDateIdDesc; omega

/-- The order `ORDER BY Expense.date.desc()` alone (line 145): the only ordering key
`search_expenses` uses. -/
def expByDateDesc (a b : Expense) : Prop :=
  b.date.ord ≤ a.date.ord

instance : DecidableRel expByDateDesc := fun a b => by
  unfold expByDateDesc; infer_instance

instance : IsTotal Expense expByDateDesc where
  total a b := by unfold expByDateDesc; omega

instance : IsTrans Expense expByDateDesc where
  trans a b c := by unfold expByDateDesc; omega

/-- Function `list_expenses(limit=15)` (lines 123–140): all expenses ordered by
(date desc, id desc), capped at `limit` rows. -/
def list_expenses (s : Store) (limit : Nat := 15) : List Expense :=
  (s.expenses.insertionSort expByDateIdDesc).take limit

/-- The two independent inclusive date-range filters of `search_expenses`
(lines 147–159); a missing/unparsable bound is dropped. -/
def inDateBounds (sd ed : Option Date) (e : Expense) : Bool :=
  (match sd with
   | some d => d.ord ≤ e.date.ord
   | none => true) &&
  (match ed with
   | some d => e.date.ord ≤ d.ord
   | none => true)

/-- Function `search_expenses(start_date, end_date)` (lines 142–173): the query is
ordered by `Expense.date.desc()` only — there is no id tie-break.  `sd`/`ed`
are the parsed bounds (`none` when the raw string was empty or unparsable, in
which case the code prints a message and ignores the bound). -/
def search_expenses (s : Store) (sd ed : Option Date) : List Expense :=
  ((s.expenses.filter (inDateBounds sd ed)).insertionSort expByDateDesc)

/-- Total of one category's expenses in one month — the
`COALESCE(SUM(e.amount), 0)` of the grouped LEFT JOIN in `category_report`
(lines 181–188). -/
def catMonthTotal (s : Store) (month : Int × Int) (cid : Nat) : ℚ :=
  ((s.expenses.filter
      (fun e => e.category_id == cid && monthOf e.date == month)).map
    (fun e => e.amount)).sum

/-- The order `ORDER BY total DESC` on the report rows. -/
def rowByTotalDesc (a b : String × ℚ) : Prop := b.2 ≤ a.2

instance : DecidableRel rowByTotalDesc := fun a b => by
  unfold rowByTotalDesc; infer_instance

instance : IsTotal (String × ℚ) rowByTotalDesc where
  total a b := le_total b.2 a.2

instance : IsTrans (String × ℚ) rowByTotalDesc where
  trans a b c hab hbc := le_trans hbc hab

/-- The result set of `category_report`'s SQL (lines 181–189): one
`(name, total)` row per category (`c.name` is UNIQUE, so grouping by name is
grouping by category row), ordered by total descending. -/
def category_report_rows (s : Store) (month : Int × Int) :
    List (String × ℚ) :=
  (s.categories.map (fun c => (c.name, catMonthTotal s month c.id))).insertionSort
    rowByTotalDesc

/-- The rows `category_report` actually prints (lines 198–200): only those
with `amt > 0`. -/
def category_report_printed (s : Store) (month : Int × Int) :
    List (String × ℚ) :=
  (category_report_rows s month).filter (fun r => 0 < r.2)

/-- The grand total `category_report` prints (lines 197–203): `total += amt`
over exactly the printed rows. -/
def category_report_total (s : Store) (month : Int × Int) : ℚ :=
  ((category_report_printed s month).map (fun r => r.2)).sum

/-- The query `SELECT COALESCE(SUM(amount), 0) FROM expenses WHERE strftime('%Y-%m',
date) = :month` (lines 216–221) — also the spec's `sumExpensesForMonth`. -/
def month_spent (s : Store) (month : Int × Int) : ℚ :=
  ((s.expenses.filter (fun e => monthOf e.date == month)).map
    (fun e => e.amount)).sum

/-- The `status_text` of `budget_status` (line 225). -/
def status_text (percent : ℚ) : String :=
  if percent < 80 then "GOOD"
  else if percent < 100 then "CAUTION"
  else "OVER BUDGET!"

/-- Function `budget_status()` (lines 207–231), with the current month made explicit.
Returns `none` when no budget row exists for the month ("no budget set"),
otherwise `(limit, spent, percent, status_text)`. -/
def budget_status (s : Store) (month : Int × Int) :
    Option (ℚ × ℚ × ℚ × String) :=
  match s.budgets.find? (fun b => b.month == month) with
  | none => none
  | some budget =>
      let spent := month_spent s month
      let percent := if 0 < budget.limit then spent / budget.limit * 100 else 0
      some (budget.limit, spent, percent, status_text percent)

/-- Just the band text of `budget_status`. -/
def band_of (s : Store) (month : Int × Int) : Option String :=
  (budget_status s month).map (fun r => r.2.2.2)

/-- Overwrite the limit of the *first* budget row matching `month` — what
`b = query.filter_by(month=month).first(); b.limit = limit` does. -/
def overwriteFirstBudget (month : Int × Int) (limit : ℚ) :
    List Budget → List Budget
  | [] => []
  | b :: rest =>
      if b.month == month then { b with limit := limit } :: rest
      else b :: overwriteFirstBudget month limit rest

/-- Function `set_budget(limit, month)` (lines 233–250): overwrite the existing row's
limit in place, or insert a new row. -/
def set_budget (s : Store) (limit : ℚ) (month : Int × Int) : Store :=
  if s.budgets.any (fun b => b.month == month) then
    { s with budgets := overwriteFirstBudget month limit s.budgets }
  else
    { s with budgets := s.budgets ++ [⟨s.nextBudId, month, limit⟩],
             nextBudId := s.nextBudId + 1 }

/-- The uniqueness invariant of `budgets.month` (UNIQUE constraint, line 39):
no two budget rows share a month. -/
def budgetMonthsDistinct (s : Store) : Prop :=
  s.budgets.Pairwise (fun a b => a.month ≠ b.month)

/-- The order `ORDER BY Subscription.next_date` ascending (line 278). -/
def subByDueAsc (a b : Subscription) : Prop :=
  a.next_date.ord ≤ b.next_date.ord

instance : DecidableRel subByDueAsc := fun a b => by
  unfold subByDueAsc; infer_instance

instance : IsTotal Subscription subByDueAsc where
  total a b := by unfold subByDueAsc; omega

instance : IsTrans Subscription subByDueAsc where
  trans a b c := by unfold subByDueAsc; omega

/-- Function `list_upcoming_subscriptions(days=30)` (lines 270–294): subscriptions
with `next_date <= today + timedelta(days=days)` (no lower bound), ordered by
`next_date` ascending. -/
def list_upcoming_subscriptions (s : Store) (today : Date) (days : Int) :
    List Subscription :=
  (s.subscriptions.filter
      (fun sub => sub.next_date.ord ≤ today.ord + days)).insertionSort
    subByDueAsc

/-- The value `(s.next_date - today).days` (line 288). -/
def days_left (sub : Subscription) (today : Date) : Int :=
  sub.next_date.ord - today.ord

/-- The display band of a subscription, from its color (line 290):
red = overdue, yellow = due-soon, green = upcoming. -/
def sub_band (dl : Int) : String :=
  if dl ≤ 0 then "red" else if dl ≤ 7 then "yellow" else "green"

/-- The per-row text (line 289): day 0 shows "TODAY!". -/
def sub_days_text (dl : Int) : String :=
  if 0 < dl then "in " ++ toString dl ++ " days"
  else if dl == 0 then "TODAY!"
  else toString (-dl) ++ " days overdue"

/-!  Concrete stores used as witnesses and counterexamples. -/

/-- A store with a single January-2024 budget of `lim` and a single
January-2024 expense of `spent`. -/
def demoBudgetStore (spent lim : ℚ) : Store :=
  { Store.empty with
      categories := [⟨1, "c"⟩], nextCatId := 2,
      expenses := [⟨1, "x", spent, ⟨2024, 1, 10⟩, 1⟩], nextExpId := 2,
      budgets := [⟨1, (2024, 1), lim⟩], nextBudId := 2 }

/-- Two expenses on the same date: ids 1 and 2, inserted in that order. -/
def twoSameDayStore : Store :=
  { Store.empty with
      categories := [⟨1, "food"⟩], nextCatId := 2,
      expenses := [⟨1, "a", 5, ⟨2024, 1, 5⟩, 1⟩, ⟨2, "b", 7, ⟨2024, 1, 5⟩, 1⟩],
      nextExpId := 3 }

/-- The scenario store of the spec's §8: Coffee ₹150 (food, 2024-01-05) and
Rent ₹10000 (housing, 2024-01-01). -/
def scenarioStore : Store :=
  { Store.empty with
      categories := [⟨1, "food"⟩, ⟨2, "housing"⟩], nextCatId := 3,
      expenses := [⟨1, "Coffee", 150, ⟨2024, 1, 5⟩, 1⟩,
                   ⟨2, "Rent", 10000, ⟨2024, 1, 1⟩, 2⟩],
      nextExpId := 3 }

/-!  ## Theorems -/

/-- In the demo store the month's spending is exactly the one expense. -/
theorem month_spent_demo (spent lim : ℚ) :
    month_spent (demoBudgetStore spent lim) (2024, 1) = spent := by
  simp [month_spent, demoBudgetStore, Store.empty, monthOf]

/-- Evaluation of `budget_status` on the demo store. -/
theorem budget_status_demo (spent lim : ℚ) (hl : 0 < lim) :
    budget_status (demoBudgetStore spent lim) (2024, 1) =
      some (lim, spent, spent / lim * 100, status_text (spent / lim * 100)) := by
  have hfind : (demoBudgetStore spent lim).budgets.find?
      (fun b => b.month == (2024, 1)) = some ⟨1, (2024, 1), lim⟩ := by
    simp [demoBudgetStore, Store.empty, List.find?]
  unfold budget_status
  rw [hfind]
  dsimp only
  rw [if_pos hl, month_spent_demo]

/-- C1: when the month has a budget with positive limit, `budget_status`
reports `percent = spent / limit * 100` and classifies it into exactly one of
GOOD (`percent < 80`), CAUTION (`80 ≤ percent < 100`) and OVER BUDGET
(`percent ≥ 100`); in particular spent/limit ratios 0.79, 0.80, 0.999 and
1.00 give GOOD, CAUTION, CAUTION and OVER BUDGET respectively. -/
theorem c1_budget_status_bands (s : Store) (month : Int × Int) (b : Budget)
    (hfind : s.budgets.find? (fun x => x.month == month) = some b)
    (hl : 0 < b.limit) :
    budget_status s month =
      some (b.limit, month_spent s month,
            month_spent s month / b.limit * 100,
            status_text (month_spent s month / b.limit * 100)) ∧
    (∀ p : ℚ,
      (status_text p = "GOOD" ↔ p < 80) ∧
      (status_text p = "CAUTION" ↔ 80 ≤ p ∧ p < 100) ∧
      (status_text p = "OVER BUDGET!" ↔ 100 ≤ p)) ∧
    band_of (demoBudgetStore 79 100) (2024, 1) = some "GOOD" ∧
    band_of (demoBudgetStore 80 100) (2024, 1) = some "CAUTION" ∧
    band_of (demoBudgetStore 999 1000) (2024, 1) = some "CAUTION" ∧
    band_of (demoBudgetStore 100 100) (2024, 1) = some "OVER BUDGET!" := by
  refine ⟨?_, ?_, ?_, ?_, ?_, ?_⟩
  · unfold budget_status
    rw [hfind]
    dsimp only
    rw [if_pos hl]
  · intro p
    unfold status_text
    split_ifs with h1 h2
    · exact ⟨iff_of_true rfl h1,
        iff_of_false (by decide) (fun h => absurd h1 (not_lt.mpr h.1)),
        iff_of_false (by decide)
          (fun h => absurd h1 (not_lt.mpr (le_trans (by norm_num) h)))⟩
    · exact ⟨iff_of_false (by decide) h1,
        iff_of_true rfl ⟨not_lt.mp h1, h2⟩,
        iff_of_false (by decide) (fun h => absurd h2 (not_lt.mpr h))⟩
    · exact ⟨iff_of_false (by decide) h1,
        iff_of_false (by decide) (fun h => h2 h.2),
        iff_of_true rfl (not_lt.mp h2)⟩
  · rw [band_of, budget_status_demo 79 100 (by norm_num)]
    have : (79 : ℚ) / 100 * 100 = 79 := by norm_num
    rw [this]
    unfold status_text
    rw [if_pos (by norm_num)]
    rfl
  · rw [band_of, budget_status_demo 80 100 (by norm_num)]
    have : (80 : ℚ) / 100 * 100 = 80 := by norm_num
    rw [this]
    unfold status_text
    rw [if_neg (by norm_num), if_pos (by norm_num)]
    rfl
  · rw [band_of, budget_status_demo 999 1000 (by norm_num)]
    have : (999 : ℚ) / 1000 * 100 = 999 / 10 := by norm_num
    rw [this]
    unfold status_text
    rw [if_neg (by norm_num), if_pos (by norm_num)]
    rfl
  · rw [band_of, budget_status_demo 100 100 (by norm_num)]
    have : (100 : ℚ) / 100 * 100 = 100 := by norm_num
    rw [this]
    unfold status_text
    rw [if_neg (by norm_num), if_neg (by norm_num)]
    rfl

/-- Witness for C1 at the concrete GOOD-band store (limit 100, spent 79). -/
theorem c1_budget_status_bands_witness :
    (demoBudgetStore 79 100).budgets.find? (fun x => x.month == (2024, 1)) =
      some ⟨1, (2024, 1), 100⟩ ∧
    (0 : ℚ) < (Budget.mk 1 (2024, 1) 100).limit ∧
    budget_status (demoBudgetStore 79 100) (2024, 1) =
      some ((Budget.mk 1 (2024, 1) 100).limit,
            month_spent (demoBudgetStore 79 100) (2024, 1),
            month_spent (demoBudgetStore 79 100) (2024, 1) /
              (Budget.mk 1 (2024, 1) 100).limit * 100,
            status_text (month_spent (demoBudgetStore 79 100) (2024, 1) /
              (Budget.mk 1 (2024, 1) 100).limit * 100)) :=
  ⟨by decide, by decide,
    (c1_budget_status_bands (demoBudgetStore 79 100) (2024, 1)
      ⟨1, (2024, 1), 100⟩ (by decide) (by decide)).1⟩

/-- C2 counterexample: two expenses on the same date (ids 1 then 2).
`list_expenses` returns them id-descending, `search_expenses` (no id
tie-break, stable in table order) returns them id-ascending. -/
theorem c2_search_order_counterexample :
    search_expenses twoSameDayStore none none ≠ list_expenses twoSameDayStore 15 := by
  decide

/-- C2 amended: `search_expenses` applies the inclusive date-range filters
(either bound, both, or neither) and orders the result by date descending
only — it does not apply `list_expenses`'s id-descending tie-break, so among
expenses with equal dates the order can differ from `list_expenses` (in the
model, equal-date rows stay in table order). -/
theorem c2_search_expenses_amended (s : Store) (sd ed : Option Date) :
    List.Sorted expByDateDesc (search_expenses s sd ed) ∧
    (search_expenses s sd ed).Perm (s.expenses.filter (inDateBounds sd ed)) := by
  exact ⟨List.sorted_insertionSort expByDateDesc _,
         List.perm_insertionSort expByDateDesc _⟩

/-- C7: `list_expenses(limit=N)` returns at most `N` rows, sorted by date
descending with ties broken by id descending. -/
theorem c7_list_expenses_bounded_sorted (s : Store) (N : Nat) :
    (list_expenses s N).length ≤ N ∧
    List.Sorted expByDateIdDesc (list_expenses s N) := by
  constructor
  · calc (list_expenses s N).length
        = min N (s.expenses.insertionSort expByDateIdDesc).length := by
          unfold list_expenses; exact List.length_take ..
      _ ≤ N := min_le_left ..
  · exact List.Pairwise.sublist (List.take_sublist ..)
      (List.sorted_insertionSort expByDateIdDesc _)

/-- Operation `get_or_create_category` touches only the `categories` table. -/
theorem goc_touches_only_categories (s : Store) (n : String) :
    (get_or_create_category s n).2.expenses = s.expenses ∧
    (get_or_create_category s n).2.budgets = s.budgets ∧
    (get_or_create_category s n).2.subscriptions = s.subscriptions := by
  simp only [get_or_create_category]
  cases s.categories.find? (fun c => c.name == normalizeName n) <;>
    exact ⟨rfl, rfl, rfl⟩

/-- C3 counterexample: starting from the empty store, adding an expense with
a new category name while the expense write fails leaves the newly created
category row behind — the store is *not* back to its pre-operation state. -/
theorem c3_rollback_counterexample :
    (add_expense Store.empty "Coffee" 5 "food" none ⟨2024, 1, 5⟩
        WriteFail.expenseWrite).1 ≠ Store.empty := by
  decide

/-- C3 amended: when the expense write fails, `add_expense` reports a storage
error and persists no expense (budgets and subscriptions are untouched too),
but the categories table is the one left by `get_or_create_category`, whose
insert was committed in a separate earlier transaction and therefore
survives the rollback. -/
theorem c3_rollback_amended (s : Store) (title : String) (amount : ℚ)
    (category_name : String) (exp_date : Option Date) (today : Date) :
    (add_expense s title amount category_name exp_date today
        WriteFail.expenseWrite).2 = AddResult.storageError ∧
    (add_expense s title amount category_name exp_date today
        WriteFail.expenseWrite).1.expenses = s.expenses ∧
    (add_expense s title amount category_name exp_date today
        WriteFail.expenseWrite).1.budgets = s.budgets ∧
    (add_expense s title amount category_name exp_date today
        WriteFail.expenseWrite).1.subscriptions = s.subscriptions ∧
    (add_expense s title amount category_name exp_date today
        WriteFail.expenseWrite).1.categories =
      (get_or_create_category s category_name).2.categories := by
  have hg : add_expense s title amount category_name exp_date today
      WriteFail.expenseWrite =
      ((get_or_create_category s category_name).2,
        AddResult.storageError) := rfl
  rw [hg]
  obtain ⟨he, hb, hs⟩ := goc_touches_only_categories s category_name
  exact ⟨rfl, he, hb, hs, rfl⟩

/-- C4: the add-expense user action (menu option 1) with `amount ≤ 0` never
reaches the store — the state is unchanged and a validation failure is
reported — for every title, category name and date. -/
theorem c4_nonpositive_amount_rejected (s : Store) (title : String)
    (amount : ℚ) (category : String) (exp_date : Option Date) (today : Date)
    (fail : WriteFail) (h : amount ≤ 0) :
    (menu_add_expense s title amount category exp_date today fail).1 = s ∧
    ∃ msg, (menu_add_expense s title amount category exp_date today fail).2 =
      AddResult.validationError msg := by
  unfold menu_add_expense
  split_ifs with ht
  · exact ⟨rfl, _, rfl⟩
  · exact ⟨rfl, _, rfl⟩

/-- Witness for C4: a concrete call with amount −5 leaves the concrete store
unchanged and reports a validation failure. -/
theorem c4_nonpositive_amount_rejected_witness :
    (-5 : ℚ) ≤ 0 ∧
    ((menu_add_expense twoSameDayStore "Tea" (-5) "food" none ⟨2024, 1, 5⟩
        WriteFail.noFail).1 = twoSameDayStore ∧
      ∃ msg, (menu_add_expense twoSameDayStore "Tea" (-5) "food" none
          ⟨2024, 1, 5⟩ WriteFail.noFail).2 = AddResult.validationError msg) :=
  ⟨by norm_num,
    c4_nonpositive_amount_rejected twoSameDayStore "Tea" (-5) "food" none
      ⟨2024, 1, 5⟩ WriteFail.noFail (by norm_num)⟩

/-- C6: two category resolutions whose raw names normalize identically
(differ only in casing/surrounding whitespace) return the same `Category`,
and across the two calls at most one new row is created. -/
theorem c6_category_resolution_consistent (s : Store) (a b : String)
    (h : normalizeName a = normalizeName b) :
    (get_or_create_category (get_or_create_category s a).2 b).1 =
      (get_or_create_category s a).1 ∧
    (get_or_create_category
        (get_or_create_category s a).2 b).2.categories.length ≤
      s.categories.length + 1 := by
  cases hfind : s.categories.find? (fun c => c.name == normalizeName a) with
  | some c =>
      have h1 : get_or_create_category s a = (c, s) := by
        simp only [get_or_create_category]; rw [hfind]
      have h2 : get_or_create_category s b = (c, s) := by
        simp only [get_or_create_category, ← h]
        rw [hfind]
      rw [h1, h2]
      exact ⟨rfl, Nat.le_succ _⟩
  | none =>
      have h1 : get_or_create_category s a =
          (⟨s.nextCatId, normalizeName a⟩,
            { s with
                categories :=
                  s.categories ++ [⟨s.nextCatId, normalizeName a⟩],
                nextCatId := s.nextCatId + 1 }) := by
        simp only [get_or_create_category]; rw [hfind]
      rw [h1]
      have hfind2 :
          (s.categories ++ [(⟨s.nextCatId, normalizeName a⟩ : Category)]).find?
              (fun c => c.name == normalizeName b) =
            some ⟨s.nextCatId, normalizeName a⟩ := by
        simp only [← h]
        rw [List.find?_append, hfind]
        simp [List.find?]
      have h2 : get_or_create_category
          ({ s with
              categories := s.categories ++ [⟨s.nextCatId, normalizeName a⟩],
              nextCatId := s.nextCatId + 1 } : Store) b =
          (⟨s.nextCatId, normalizeName a⟩,
            { s with
                categories :=
                  s.categories ++ [⟨s.nextCatId, normalizeName a⟩],
                nextCatId := s.nextCatId + 1 }) := by
        simp only [get_or_create_category]
        rw [hfind2]
      rw [h2]
      simp

/-- Witness for C6 on `" Food "` vs `"FOOD"` at the empty store. -/
theorem c6_category_resolution_consistent_witness :
    normalizeName " Food " = normalizeName "FOOD" ∧
    ((get_or_create_category
        (get_or_create_category Store.empty " Food ").2 "FOOD").1 =
      (get_or_create_category Store.empty " Food ").1 ∧
    (get_or_create_category
        (get_or_create_category Store.empty " Food ").2
        "FOOD").2.categories.length ≤
      Store.empty.categories.length + 1) :=
  ⟨by decide,
    c6_category_resolution_consistent Store.empty " Food " "FOOD" (by decide)⟩

/-- C10: an empty or whitespace-only name does not make
`get_or_create_category` fail: if no empty-named category exists yet, the
call creates and returns one whose name is `""`, and any later call with
another empty/whitespace-only input returns that same category without
adding a row. -/
theorem c10_whitespace_category (s : Store) (w1 w2 : String)
    (h1 : strStrip w1 = "") (h2 : strStrip w2 = "")
    (hnone : s.categories.find? (fun c => c.name == "") = none) :
    (get_or_create_category s w1).1.name = "" ∧
    (get_or_create_category s w1).2.categories.length =
      s.categories.length + 1 ∧
    (get_or_create_category (get_or_create_category s w1).2 w2).1 =
      (get_or_create_category s w1).1 ∧
    (get_or_create_category (get_or_create_category s w1).2 w2).2 =
      (get_or_create_category s w1).2 := by
  have hn1 : normalizeName w1 = "" := by
    rw [normalizeName, h1]; decide
  have hn2 : normalizeName w2 = "" := by
    rw [normalizeName, h2]; decide
  have hg1 : get_or_create_category s w1 =
      (⟨s.nextCatId, ""⟩,
        { s with categories := s.categories ++ [⟨s.nextCatId, ""⟩],
                 nextCatId := s.nextCatId + 1 }) := by
    simp only [get_or_create_category, hn1]
    rw [hnone]
  rw [hg1]
  have hfind2 :
      (s.categories ++ [(⟨s.nextCatId, ""⟩ : Category)]).find?
          (fun c => c.name == normalizeName w2) =
        some ⟨s.nextCatId, ""⟩ := by
    simp only [hn2]
    rw [List.find?_append, hnone]
    simp [List.find?]
  have hg2 : get_or_create_category
      ({ s with categories := s.categories ++ [⟨s.nextCatId, ""⟩],
                nextCatId := s.nextCatId + 1 } : Store) w2 =
      (⟨s.nextCatId, ""⟩,
        { s with categories := s.categories ++ [⟨s.nextCatId, ""⟩],
                 nextCatId := s.nextCatId + 1 }) := by
    simp only [get_or_create_category]
    rw [hfind2]
  rw [hg2]
  simp

/-- Overwriting a budget limit does not change the sequence of months. -/
theorem overwriteFirstBudget_months (month : Int × Int) (limit : ℚ)
    (l : List Budget) :
    (overwriteFirstBudget month limit l).map (fun b => b.month) =
      l.map (fun b => b.month) := by
  induction l with
  | nil => rfl
  | cons b rest ih =>
      unfold overwriteFirstBudget
      by_cases hb : (b.month == month) = true
      · simp [hb]
      · simp [hb, ih]

/-- Overwriting a budget limit does not change which months are present. -/
theorem overwriteFirstBudget_any (month : Int × Int) (limit : ℚ)
    (l : List Budget) :
    (overwriteFirstBudget month limit l).any (fun b => b.month == month) =
      l.any (fun b => b.month == month) := by
  induction l with
  | nil => rfl
  | cons b rest ih =>
      unfold overwriteFirstBudget
      by_cases hb : (b.month == month) = true
      · simp [hb]
      · simp [hb, ih]

/-- Overwriting the same `(month, limit)` twice equals overwriting once. -/
theorem overwriteFirstBudget_idem (month : Int × Int) (limit : ℚ)
    (l : List Budget) :
    overwriteFirstBudget month limit (overwriteFirstBudget month limit l) =
      overwriteFirstBudget month limit l := by
  induction l with
  | nil => rfl
  | cons b rest ih =>
      unfold overwriteFirstBudget
      by_cases hb : (b.month == month) = true
      · simp [overwriteFirstBudget, hb]
      · simp [overwriteFirstBudget, hb, ih]

/-- Overwriting in a list whose months all miss `month`, extended by a fresh
row carrying exactly `(month, limit)`, changes nothing. -/
theorem overwriteFirstBudget_append_fresh (month : Int × Int) (limit : ℚ)
    (l : List Budget) (nid : Nat)
    (hl : ∀ b ∈ l, (b.month == month) = false) :
    overwriteFirstBudget month limit (l ++ [⟨nid, month, limit⟩]) =
      l ++ [⟨nid, month, limit⟩] := by
  induction l with
  | nil => simp [overwriteFirstBudget]
  | cons b rest ih =>
      have hb := hl b (List.mem_cons_self b rest)
      unfold overwriteFirstBudget
      simp only [List.cons_append, hb]
      rw [if_neg (by simp [hb])]
      rw [ih (fun x hx => hl x (List.mem_cons_of_mem b hx))]

/-- C8: `set_budget` keeps at most one budget row per month (months stay
pairwise distinct), overwrites in place when the month already has a row (no
length change), and is idempotent for a fixed `(month, limit)` pair. -/
theorem c8_set_budget_upsert (s : Store) (limit : ℚ) (month : Int × Int)
    (hinv : budgetMonthsDistinct s) :
    budgetMonthsDistinct (set_budget s limit month) ∧
    (s.budgets.any (fun b => b.month == month) = true →
      (set_budget s limit month).budgets.length = s.budgets.length) ∧
    set_budget (set_budget s limit month) limit month =
      set_budget s limit month := by
  by_cases hany : s.budgets.any (fun b => b.month == month) = true
  · have hsb : set_budget s limit month =
        { s with budgets := overwriteFirstBudget month limit s.budgets } := by
      unfold set_budget; rw [if_pos hany]
    refine ⟨?_, ?_, ?_⟩
    · rw [hsb]
      unfold budgetMonthsDistinct at hinv ⊢
      have hmm : ((overwriteFirstBudget month limit s.budgets).map
            (fun b => b.month)).Pairwise (fun a b => a ≠ b) := by
        rw [overwriteFirstBudget_months]
        exact List.pairwise_map.mpr hinv
      exact List.pairwise_map.mp hmm
    · intro _
      rw [hsb]
      have := congrArg List.length
        (overwriteFirstBudget_months month limit s.budgets)
      simpa using this
    · rw [hsb]
      have hany2 : ({ s with
          budgets := overwriteFirstBudget month limit s.budgets } :
            Store).budgets.any (fun b => b.month == month) = true := by
        show (overwriteFirstBudget month limit s.budgets).any
          (fun b => b.month == month) = true
        rw [overwriteFirstBudget_any]; exact hany
      unfold set_budget
      rw [if_pos hany2]
      dsimp only
      rw [overwriteFirstBudget_idem]
  · have hfresh : ∀ b ∈ s.budgets, (b.month == month) = false := by
      have := (List.any_eq_false).mp (Bool.eq_false_iff.mpr hany)
      intro b hb
      exact Bool.eq_false_iff.mpr (this b hb)
    have hsb : set_budget s limit month =
        { s with budgets := s.budgets ++ [⟨s.nextBudId, month, limit⟩],
                 nextBudId := s.nextBudId + 1 } := by
      unfold set_budget; rw [if_neg hany]
    refine ⟨?_, ?_, ?_⟩
    · rw [hsb]
      unfold budgetMonthsDistinct at hinv ⊢
      show (s.budgets ++ [(⟨s.nextBudId, month, limit⟩ : Budget)]).Pairwise _
      rw [List.pairwise_append]
      refine ⟨hinv, List.pairwise_singleton _ _, ?_⟩
      intro a ha b hb
      rw [List.mem_singleton] at hb
      subst hb
      intro hmeq
      have hf := hfresh a ha
      rw [show (⟨s.nextBudId, month, limit⟩ : Budget).month = month from rfl]
        at hmeq
      rw [hmeq] at hf
      simp at hf
    · intro hc; exact absurd hc hany
    · rw [hsb]
      have hany2 : ({ s with
          budgets := s.budgets ++ [⟨s.nextBudId, month, limit⟩],
          nextBudId := s.nextBudId + 1 } : Store).budgets.any
            (fun b => b.month == month) = true := by
        show (s.budgets ++ [(⟨s.nextBudId, month, limit⟩ : Budget)]).any
          (fun b => b.month == month) = true
        rw [List.any_append]
        simp
      unfold set_budget
      rw [if_pos hany2]
      dsimp only
      rw [overwriteFirstBudget_append_fresh month limit s.budgets s.nextBudId
        hfresh]

/-- Witness for C8 at a concrete store with one (2024-01) budget row. -/
theorem c8_set_budget_upsert_witness :
    budgetMonthsDistinct (demoBudgetStore 79 100) ∧
    (budgetMonthsDistinct
        (set_budget (demoBudgetStore 79 100) 500 (2024, 1)) ∧
      ((demoBudgetStore 79 100).budgets.any
          (fun b => b.month == (2024, 1)) = true →
        (set_budget (demoBudgetStore 79 100) 500 (2024, 1)).budgets.length =
          (demoBudgetStore 79 100).budgets.length) ∧
      set_budget (set_budget (demoBudgetStore 79 100) 500 (2024, 1)) 500
          (2024, 1) =
        set_budget (demoBudgetStore 79 100) 500 (2024, 1)) :=
  ⟨by unfold budgetMonthsDistinct; decide,
    c8_set_budget_upsert (demoBudgetStore 79 100) 500 (2024, 1)
      (by unfold budgetMonthsDistinct; decide)⟩

/-- C9: `list_upcoming_subscriptions(days)` returns exactly the subscriptions
with `next_due ≤ today + days` (already-overdue ones included, no lower
bound), ordered by `next_due` ascending; each is classified by
`days_left = next_due − today` into overdue (`days_left ≤ 0`, day 0 shown as
"TODAY!"), due-soon (`1 ≤ days_left ≤ 7`) and upcoming (`days_left > 7`). -/
theorem c9_upcoming_subscriptions (s : Store) (today : Date) (days : Int) :
    (list_upcoming_subscriptions s today days).Perm
      (s.subscriptions.filter
        (fun sub => sub.next_date.ord ≤ today.ord + days)) ∧
    List.Sorted subByDueAsc (list_upcoming_subscriptions s today days) ∧
    (∀ sub, sub ∈ list_upcoming_subscriptions s today days ↔
      (sub ∈ s.subscriptions ∧ sub.next_date.ord ≤ today.ord + days)) ∧
    (∀ dl : Int,
      (sub_band dl = "red" ↔ dl ≤ 0) ∧
      (sub_band dl = "yellow" ↔ 1 ≤ dl ∧ dl ≤ 7) ∧
      (sub_band dl = "green" ↔ 7 < dl)) ∧
    sub_days_text 0 = "TODAY!" := by
  refine ⟨List.perm_insertionSort subByDueAsc _,
    List.sorted_insertionSort subByDueAsc _, ?_, ?_, rfl⟩
  · intro sub
    unfold list_upcoming_subscriptions
    rw [List.mem_insertionSort, List.mem_filter]
    exact and_congr_right fun _ => decide_eq_true_iff
  · intro dl
    unfold sub_band
    split_ifs with hle h7
    · exact ⟨iff_of_true rfl hle,
        iff_of_false (by decide) (fun h => absurd hle (by omega)),
        iff_of_false (by decide) (fun h => absurd hle (by omega))⟩
    · exact ⟨iff_of_false (by decide) hle,
        iff_of_true rfl (by omega),
        iff_of_false (by decide) (fun h => absurd h7 (by omega))⟩
    · exact ⟨iff_of_false (by decide) hle,
        iff_of_false (by decide) (fun h => absurd h7 (by omega)),
        iff_of_true rfl (by omega)⟩

/-- One cons step of a per-category month filter-sum. -/
theorem catFilter_sum_cons (e : Expense) (rest : List Expense)
    (month : Int × Int) (c : Category) :
    (((e :: rest).filter
        (fun x => x.category_id == c.id && monthOf x.date == month)).map
      (fun x => x.amount)).sum =
    (if e.category_id == c.id && monthOf e.date == month then e.amount
      else 0) +
    ((rest.filter
        (fun x => x.category_id == c.id && monthOf x.date == month)).map
      (fun x => x.amount)).sum := by
  rw [List.filter_cons]
  by_cases hb : (e.category_id == c.id && monthOf e.date == month) = true
  · rw [if_pos hb, if_pos hb, List.map_cons, List.sum_cons]
  · rw [if_neg hb, if_neg hb, zero_add]

/-- Mapping every category to zero sums to zero. -/
theorem sum_map_zero (cats : List Category) :
    (cats.map (fun _ => (0 : ℚ))).sum = 0 := by
  induction cats with
  | nil => rfl
  | cons c rest ih => rw [List.map_cons, List.sum_cons, ih, add_zero]

/-- An id-indicator summed over categories with pairwise-distinct ids, one of
which is `cid`, picks out `x` exactly once. -/
theorem sum_indicator_of_nodup (cats : List Category) (cid : Nat) (x : ℚ)
    (hn : (cats.map (fun c => c.id)).Nodup)
    (hmem : cid ∈ cats.map (fun c => c.id)) :
    (cats.map (fun c => if cid == c.id then x else 0)).sum = x := by
  induction cats with
  | nil => simp at hmem
  | cons c rest ih =>
      rw [List.map_cons] at hn hmem
      rw [List.map_cons, List.sum_cons]
      rcases List.nodup_cons.mp hn with ⟨hcnot, hn'⟩
      by_cases hc : (cid == c.id) = true
      · have hcid : cid = c.id := beq_iff_eq.mp hc
        have hrest : rest.map (fun c => if cid == c.id then x else 0) =
            rest.map (fun _ => (0 : ℚ)) := by
          apply List.map_congr_left
          intro a ha
          have : cid ∉ rest.map (fun c => c.id) := by rw [hcid]; exact hcnot
          rw [if_neg]
          intro hax
          exact this (List.mem_map.mpr ⟨a, ha, (beq_iff_eq.mp hax).symm⟩)
        rw [if_pos hc, hrest, sum_map_zero, add_zero]
      · have hmem' : cid ∈ rest.map (fun c => c.id) := by
          rcases List.mem_cons.mp hmem with h | h
          · exact absurd (beq_iff_eq.mpr h) hc
          · exact h
        rw [if_neg hc, ih hn' hmem', zero_add]

/-- Partition of a month's expense total by category: summing the
per-category month totals over pairwise-distinct category ids that cover
every expense's `category_id` gives the month's full total. -/
theorem sum_catTotals (cats : List Category) (exps : List Expense)
    (month : Int × Int)
    (hn : (cats.map (fun c => c.id)).Nodup)
    (hcov : ∀ x ∈ exps, x.category_id ∈ cats.map (fun c => c.id)) :
    (cats.map (fun c =>
      ((exps.filter
          (fun x => x.category_id == c.id && monthOf x.date == month)).map
        (fun x => x.amount)).sum)).sum =
    ((exps.filter (fun x => monthOf x.date == month)).map
      (fun x => x.amount)).sum := by
  induction exps with
  | nil => simp [sum_map_zero]
  | cons e rest ih =>
      have hcov' : ∀ x ∈ rest, x.category_id ∈ cats.map (fun c => c.id) :=
        fun x hx => hcov x (List.mem_cons_of_mem e hx)
      have hmape : cats.map (fun c =>
          (((e :: rest).filter
              (fun x => x.category_id == c.id && monthOf x.date == month)).map
            (fun x => x.amount)).sum) =
          cats.map (fun c =>
            (if e.category_id == c.id && monthOf e.date == month then e.amount
              else 0) +
            ((rest.filter
                (fun x => x.category_id == c.id && monthOf x.date == month)).map
              (fun x => x.amount)).sum) :=
        List.map_congr_left (fun c _ => catFilter_sum_cons e rest month c)
      rw [hmape, List.sum_map_add, ih hcov']
      by_cases hm : (monthOf e.date == month) = true
      · have hind : cats.map (fun c =>
            if e.category_id == c.id && monthOf e.date == month then e.amount
              else 0) =
            cats.map (fun c =>
              if e.category_id == c.id then e.amount else 0) := by
          apply List.map_congr_left
          intro a _
          rw [hm, Bool.and_true]
        rw [hind,
          sum_indicator_of_nodup cats e.category_id e.amount hn
            (hcov e (List.mem_cons_self e rest)),
          List.filter_cons, if_pos hm, List.map_cons, List.sum_cons]
      · have hind : cats.map (fun c =>
            if e.category_id == c.id && monthOf e.date == month then e.amount
              else 0) =
            cats.map (fun _ => (0 : ℚ)) := by
          apply List.map_congr_left
          intro a _
          rw [Bool.eq_false_iff.mpr hm, Bool.and_false]
          rfl
        rw [hind, sum_map_zero, zero_add, List.filter_cons, if_neg hm]

/-- Every per-category month total is nonnegative when all amounts are
positive. -/
theorem catMonthTotal_nonneg (s : Store) (month : Int × Int) (cid : Nat)
    (hpos : ∀ e ∈ s.expenses, 0 < e.amount) :
    0 ≤ catMonthTotal s month cid := by
  unfold catMonthTotal
  apply List.sum_nonneg
  intro x hx
  rw [List.mem_map] at hx
  obtain ⟨e, he, rfl⟩ := hx
  exact le_of_lt (hpos e (List.mem_of_mem_filter he))

/-- Dropping the non-positive rows of a nonnegative row list does not change
the sum of the row totals. -/
theorem sum_filter_pos_of_nonneg (l : List (String × ℚ))
    (h : ∀ r ∈ l, 0 ≤ r.2) :
    ((l.filter (fun r => 0 < r.2)).map (fun r => r.2)).sum =
      (l.map (fun r => r.2)).sum := by
  induction l with
  | nil => rfl
  | cons r rest ih =>
      have h' : ∀ x ∈ rest, 0 ≤ x.2 :=
        fun x hx => h x (List.mem_cons_of_mem r hx)
      rw [List.filter_cons]
      by_cases hr : (0 : ℚ) < r.2
      · rw [if_pos (by simpa using hr), List.map_cons, List.sum_cons,
          List.map_cons, List.sum_cons, ih h']
      · have hz : r.2 = 0 :=
          le_antisymm (not_lt.mp hr) (h r (List.mem_cons_self r rest))
        rw [if_neg (by simpa using hr), List.map_cons, List.sum_cons, hz,
          zero_add, ih h']

/-- C5: `category_report` prints exactly the categories with nonzero month
total (its filter `amt > 0` coincides with `≠ 0` since amounts are
positive), ordered by total descending, and its printed grand total equals
the sum of the printed per-category totals, which equals the month's total
spending over all expenses. -/
theorem c5_category_report (s : Store) (month : Int × Int)
    (hpos : ∀ e ∈ s.expenses, 0 < e.amount)
    (hcov : ∀ e ∈ s.expenses,
      e.category_id ∈ s.categories.map (fun c => c.id))
    (hids : (s.categories.map (fun c => c.id)).Nodup) :
    (∀ r ∈ category_report_printed s month, r.2 ≠ 0) ∧
    (category_report_printed s month).Perm
      ((s.categories.map
          (fun c => (c.name, catMonthTotal s month c.id))).filter
        (fun r => r.2 ≠ 0)) ∧
    List.Sorted rowByTotalDesc (category_report_printed s month) ∧
    category_report_total s month =
      ((category_report_printed s month).map (fun r => r.2)).sum ∧
    category_report_total s month = month_spent s month := by
  have hraw : ∀ r ∈ s.categories.map
      (fun c => (c.name, catMonthTotal s month c.id)), 0 ≤ r.2 := by
    intro r hr
    rw [List.mem_map] at hr
    obtain ⟨c, _, rfl⟩ := hr
    exact catMonthTotal_nonneg s month c.id hpos
  have hsortedraw : ∀ r ∈ category_report_rows s month, 0 ≤ r.2 := by
    intro r hr
    exact hraw r ((List.perm_insertionSort rowByTotalDesc _).mem_iff.mp hr)
  refine ⟨?_, ?_, ?_, rfl, ?_⟩
  · intro r hr
    have hr' : r ∈ (category_report_rows s month).filter
        (fun x => decide (0 < x.2)) := hr
    have hlt : 0 < r.2 := of_decide_eq_true (List.mem_filter.mp hr').2
    exact ne_of_gt hlt
  · have hperm : (category_report_printed s month).Perm
        ((s.categories.map
            (fun c => (c.name, catMonthTotal s month c.id))).filter
          (fun r => 0 < r.2)) :=
      List.Perm.filter _ (List.perm_insertionSort rowByTotalDesc _)
    have heq : (s.categories.map
          (fun c => (c.name, catMonthTotal s month c.id))).filter
          (fun r => 0 < r.2) =
        (s.categories.map
            (fun c => (c.name, catMonthTotal s month c.id))).filter
          (fun r => r.2 ≠ 0) := by
      apply List.filter_congr
      intro x hx
      have hnn := hraw x hx
      have : (0 < x.2) ↔ (x.2 ≠ 0) :=
        ⟨fun h => ne_of_gt h, fun h => lt_of_le_of_ne hnn (Ne.symm h)⟩
      simp [this]
    rw [← heq]
    exact hperm
  · exact List.Pairwise.filter _
      (List.sorted_insertionSort rowByTotalDesc _)
  · have h1 : category_report_total s month =
        (((s.categories.map
            (fun c => (c.name, catMonthTotal s month c.id))).filter
          (fun r => 0 < r.2)).map (fun r => r.2)).sum := by
      unfold category_report_total category_report_printed
      exact List.Perm.sum_eq (List.Perm.map _
        (List.Perm.filter _ (List.perm_insertionSort rowByTotalDesc _)))
    rw [h1, sum_filter_pos_of_nonneg _ hraw]
    unfold month_spent
    rw [← sum_catTotals s.categories s.expenses month hids hcov]
    rw [List.map_map]
    rfl

/-- Witness for C5 at the spec's §8 scenario store in month 2024-01. -/
theorem c5_category_report_witness :
    (∀ e ∈ scenarioStore.expenses, 0 < e.amount) ∧
    (∀ e ∈ scenarioStore.expenses,
      e.category_id ∈ scenarioStore.categories.map (fun c => c.id)) ∧
    (scenarioStore.categories.map (fun c => c.id)).Nodup ∧
    ((∀ r ∈ category_report_printed scenarioStore (2024, 1), r.2 ≠ 0) ∧
      (category_report_printed scenarioStore (2024, 1)).Perm
        ((scenarioStore.categories.map
            (fun c => (c.name, catMonthTotal scenarioStore (2024, 1) c.id))).filter
          (fun r => r.2 ≠ 0)) ∧
      List.Sorted rowByTotalDesc
        (category_report_printed scenarioStore (2024, 1)) ∧
      category_report_total scenarioStore (2024, 1) =
        ((category_report_printed scenarioStore (2024, 1)).map
          (fun r => r.2)).sum ∧
      category_report_total scenarioStore (2024, 1) =
        month_spent scenarioStore (2024, 1)) :=
  ⟨by decide, by decide, by decide,
    c5_category_report scenarioStore (2024, 1) (by decide) (by decide)
      (by decide)⟩

/-- Witness for C10: `"   "` then `""` on the empty store. -/
theorem c10_whitespace_category_witness :
    strStrip "   " = "" ∧ strStrip "" = "" ∧
    Store.empty.categories.find? (fun c => c.name == "") = none ∧
    ((get_or_create_category Store.empty "   ").1.name = "" ∧
      (get_or_create_category Store.empty "   ").2.categories.length =
        Store.empty.categories.length + 1 ∧
      (get_or_create_category
          (get_or_create_category Store.empty "   ").2 "").1 =
        (get_or_create_category Store.empty "   ").1 ∧
      (get_or_create_category
          (get_or_create_category Store.empty "   ").2 "").2 =
        (get_or_create_category Store.empty "   ").2) :=
  ⟨by decide, by decide, rfl,
    c10_whitespace_category Store.empty "   " "" (by decide) (by decide) rfl⟩

end FinTrack
